import Mathlib

/-!
Shallow embedding of the aggregation logic of the Weather Data Analyser
(`src/weather.py`, `src/app.py`).  Floating-point values are modelled as
exact rationals; a null/NaN cell is `none`.  pandas reductions (`mean`,
`median`, `std`, `min`, `max`, `idxmax`, `groupby(...).mean()`) skip null
cells, and a reduction over an empty set of values yields NaN (`none`).
-/

namespace Weather

/-- A cell of a numeric dataframe column: `none` models a missing value (NaN). -/
abbrev Cell := Option ℚ

/-- The non-null values of a column, in order (the pandas `skipna` view). -/
def vals (xs : List Cell) : List ℚ := xs.filterMap id

/-- pandas `Series.mean()`: mean of the non-null values; NaN (`none`) when
there are none. -/
def seriesMean (xs : List Cell) : Option ℚ :=
  if vals xs = [] then none else some ((vals xs).sum / (vals xs).length)

/-- Float comparison `a > b`: false when either operand is NaN (`none`). -/
def optGt : Option ℚ → Option ℚ → Bool
  | some a, some b => decide (b < a)
  | _, _ => false

/-- Variable `avg_temp` of `render_insights` (src/app.py:516): the mean of the whole
`temperature` column. -/
def avg_temp (temps : List Cell) : Option ℚ := seriesMean temps

/-- Variable `recent_avg` of `render_insights` (src/app.py:517), literally
`df['temperature'].iloc[-30:].mean() if len(df) >= 30 else
df['temperature'].mean()`; `iloc[-30:]` keeps the last 30 rows. -/
def recent_avg (temps : List Cell) : Option ℚ :=
  if 30 ≤ temps.length then seriesMean (temps.drop (temps.length - 30))
  else seriesMean temps

/-- Variable `temp_trend` of `render_insights` (src/app.py:518); the spec calls this
operation `classifyTrend`.  The float comparison `recent_avg > avg_temp` is
false when either mean is NaN. -/
def temp_trend (temps : List Cell) : String :=
  if optGt (recent_avg temps) (avg_temp temps) then "warming" else "cooling"

/-- Operation `classifyTrend` as the spec words it: the recent mean is taken over the
last `min 30 rowCount` rows in table order and compared strictly against the
overall mean. -/
def classifyTrendSpec (temps : List Cell) : String :=
  if optGt (seriesMean (temps.drop (temps.length - min 30 temps.length)))
      (seriesMean temps)
  then "warming" else "cooling"

theorem optGt_self (x : Option ℚ) : optGt x x = false := by
  cases x <;> simp [optGt]

/-- C1: `classifyTrend` takes the overall mean over all rows and the recent
mean over the last `min 30 rowCount` rows in table order, returning
`"warming"` on a strictly greater recent mean and `"cooling"` otherwise; in
particular equal means yield `"cooling"`. -/
theorem temp_trend_matches_spec (temps : List Cell) :
    temp_trend temps = classifyTrendSpec temps ∧
    (recent_avg temps = avg_temp temps → temp_trend temps = "cooling") := by
  constructor
  · unfold temp_trend classifyTrendSpec recent_avg avg_temp
    by_cases h : 30 ≤ temps.length
    · rw [Nat.min_eq_left h, if_pos h]
    · have hm : min 30 temps.length = temps.length := by omega
      rw [hm, Nat.sub_self, List.drop_zero, if_neg h]
  · intro h
    unfold temp_trend
    rw [h, optGt_self, if_neg (by simp)]

/-- Instantiation of `temp_trend_matches_spec` at a concrete table. -/
theorem temp_trend_matches_spec_inst :
    temp_trend [some 3, none, some 5] = classifyTrendSpec [some 3, none, some 5] ∧
    (recent_avg [some 3, none, some 5] = avg_temp [some 3, none, some 5] →
      temp_trend [some 3, none, some 5] = "cooling") :=
  temp_trend_matches_spec [some 3, none, some 5]

/-- C2: on a table of at most 30 rows the recent window is the whole table,
so the two means coincide and `classifyTrend` answers `"cooling"`. -/
theorem temp_trend_cooling_of_short (temps : List Cell)
    (h : temps.length ≤ 30) : temp_trend temps = "cooling" := by
  unfold temp_trend recent_avg avg_temp
  by_cases h30 : 30 ≤ temps.length
  · have h0 : temps.length - 30 = 0 := by omega
    rw [if_pos h30, h0, List.drop_zero, optGt_self, if_neg (by simp)]
  · rw [if_neg h30, optGt_self, if_neg (by simp)]

/-- Instantiation of `temp_trend_cooling_of_short` at a concrete table. -/
theorem temp_trend_cooling_of_short_inst :
    ([some 7, some 9, none] : List Cell).length ≤ 30 ∧
    temp_trend [some 7, some 9, none] = "cooling" :=
  ⟨by decide, temp_trend_cooling_of_short [some 7, some 9, none] (by decide)⟩

theorem vals_map_some (l : List ℚ) : vals (l.map some) = l := by
  simp [vals]

theorem seriesMean_map_some (l : List ℚ) (h : l ≠ []) :
    seriesMean (l.map some) = some (l.sum / l.length) := by
  simp [seriesMean, vals_map_some, h]

theorem mul_length_lt_sum {x : ℚ} :
    ∀ {b : List ℚ}, b ≠ [] → (∀ y ∈ b, x < y) → x * b.length < b.sum
  | [], h, _ => absurd rfl h
  | [y], _, hy => by simpa using hy y (by simp)
  | y :: z :: b, _, hy => by
      have ih := mul_length_lt_sum (b := z :: b) (by simp)
        (fun w hw => hy w (List.mem_cons_of_mem _ hw))
      have hx : x < y := hy y (List.mem_cons_self _ _)
      have hlen : (((y :: z :: b).length : ℚ)) = ((z :: b).length : ℚ) + 1 := by
        push_cast [List.length_cons]; ring
      rw [List.sum_cons, hlen]
      nlinarith [ih, hx]

theorem sum_mul_lt_length_mul {L S : ℚ} :
    ∀ {a : List ℚ}, a ≠ [] → (∀ x ∈ a, x * L < S) → a.sum * L < a.length * S
  | [], h, _ => absurd rfl h
  | [x], _, hx => by simpa using hx x (by simp)
  | x :: y :: a, _, hx => by
      have ih := sum_mul_lt_length_mul (a := y :: a) (by simp)
        (fun w hw => hx w (List.mem_cons_of_mem _ hw))
      have h1 := hx x (List.mem_cons_self _ _)
      have hlen : (((x :: y :: a).length : ℚ)) = ((y :: a).length : ℚ) + 1 := by
        push_cast [List.length_cons]; ring
      rw [List.sum_cons, hlen, add_mul, add_mul, one_mul]
      linarith

/-- Every element of `a` is below every element of `b`, so the scaled sums
compare strictly: `a.sum * b.length < a.length * b.sum`. -/
theorem sum_mul_length_lt {a b : List ℚ} (ha : a ≠ []) (hb : b ≠ [])
    (hab : ∀ x ∈ a, ∀ y ∈ b, x < y) :
    a.sum * b.length < a.length * b.sum :=
  sum_mul_lt_length_mul ha (fun x hx => mul_length_lt_sum hb (hab x hx))

/-- C3: on a strictly increasing temperature sequence of length at least 31,
the mean of the last 30 values strictly exceeds the overall mean, so
`classifyTrend` answers `"warming"`. -/
theorem temp_trend_warming_of_strictMono (ts : List ℚ)
    (hs : List.Sorted (· < ·) ts) (hn : 31 ≤ ts.length) :
    temp_trend (ts.map some) = "warming" := by
  have hla : (ts.take (ts.length - 30)).length = ts.length - 30 := by
    rw [List.length_take]; omega
  have hlb : (ts.drop (ts.length - 30)).length = 30 := by
    rw [List.length_drop]; omega
  have hane : ts.take (ts.length - 30) ≠ [] := by
    intro h; rw [h] at hla; simp at hla; omega
  have hbne : ts.drop (ts.length - 30) ≠ [] := by
    intro h; rw [h] at hlb; simp at hlb
  have htsne : ts ≠ [] := by
    intro h; rw [h] at hn; simp at hn
  have hp : List.Pairwise (· < ·)
      (ts.take (ts.length - 30) ++ ts.drop (ts.length - 30)) := by
    rw [List.take_append_drop]; exact hs
  have hcross := (List.pairwise_append.mp hp).2.2
  have key := sum_mul_length_lt hane hbne hcross
  have hsum : (ts.take (ts.length - 30)).sum + (ts.drop (ts.length - 30)).sum
      = ts.sum := by
    rw [← List.sum_append, List.take_append_drop]
  have hlen : (ts.take (ts.length - 30)).length + (ts.drop (ts.length - 30)).length
      = ts.length := by
    rw [← List.length_append, List.take_append_drop]
  have h30 : 30 ≤ (ts.map some).length := by rw [List.length_map]; omega
  have hgt : ts.sum / (ts.length : ℚ)
      < (ts.drop (ts.length - 30)).sum / ((ts.drop (ts.length - 30)).length : ℚ) := by
    have hql : (0 : ℚ) < (ts.length : ℚ) := by
      exact_mod_cast (by omega : 0 < ts.length)
    have hqb : (0 : ℚ) < ((ts.drop (ts.length - 30)).length : ℚ) := by
      rw [hlb]; norm_num
    rw [div_lt_div_iff₀ hql hqb]
    have hsq : ts.sum = (ts.take (ts.length - 30)).sum + (ts.drop (ts.length - 30)).sum :=
      hsum.symm
    have hlq : ((ts.length : ℚ))
        = ((ts.take (ts.length - 30)).length : ℚ) + ((ts.drop (ts.length - 30)).length : ℚ) := by
      exact_mod_cast congrArg (Nat.cast : ℕ → ℚ) hlen.symm
    rw [hsq, hlq]
    nlinarith [key]
  unfold temp_trend recent_avg avg_temp
  rw [if_pos h30, List.length_map, ← List.map_drop,
    seriesMean_map_some _ hbne, seriesMean_map_some ts htsne]
  have hopt : optGt
      (some ((ts.drop (ts.length - 30)).sum / ((ts.drop (ts.length - 30)).length : ℚ)))
      (some (ts.sum / (ts.length : ℚ))) = true := by
    simp only [optGt, decide_eq_true_eq]
    exact hgt
  rw [hopt]
  rfl

/-- Instantiation of `temp_trend_warming_of_strictMono` at the table
`0, 1, ..., 30`. -/
theorem temp_trend_warming_of_strictMono_inst :
    List.Sorted (· < ·) ((List.range 31).map (Nat.cast : ℕ → ℚ)) ∧
    31 ≤ ((List.range 31).map (Nat.cast : ℕ → ℚ)).length ∧
    temp_trend (((List.range 31).map (Nat.cast : ℕ → ℚ)).map some) = "warming" := by
  have hsorted : List.Sorted (· < ·) ((List.range 31).map (Nat.cast : ℕ → ℚ)) :=
    List.Pairwise.map _ (fun a b h => by exact_mod_cast h) (List.sorted_lt_range 31)
  exact ⟨hsorted, by simp, temp_trend_warming_of_strictMono _ hsorted (by simp)⟩

/-! ### Summary statistics (`summary_statistics`, src/weather.py:45-63;
`render_statistics`, src/app.py:249-292) -/

/-- pandas `Series.median()`: sort the non-null values; empty gives NaN, odd
length gives the middle element, even length the mean of the two middle
elements. -/
def seriesMedian (xs : List Cell) : Option ℚ :=
  let vs := List.insertionSort (· ≤ ·) (vals xs)
  if vs.length = 0 then none
  else if vs.length % 2 = 1 then vs[vs.length / 2]?
  else
    match vs[vs.length / 2 - 1]?, vs[vs.length / 2]? with
    | some a, some b => some ((a + b) / 2)
    | _, _ => none

/-- The square of pandas `Series.std()` (default `ddof=1`): the sample
variance of the non-null values, NaN (`none`) when fewer than 2 of them
exist.  The source reports the square root of this value; `√` is strictly
monotone and maps NaN to NaN, so the pre-root value carries the same
information and keeps the embedding inside `ℚ`. -/
def seriesStdSq (xs : List Cell) : Option ℚ :=
  if (vals xs).length < 2 then none
  else
    some (((vals xs).map
        (fun v => (v - (vals xs).sum / ((vals xs).length : ℚ)) ^ 2)).sum
      / (((vals xs).length : ℚ) - 1))

/-- Minimum of a list of rationals, `none` on the empty list. -/
def listMin : List ℚ → Option ℚ
  | [] => none
  | x :: l =>
    match listMin l with
    | none => some x
    | some m => some (min x m)

/-- Maximum of a list of rationals, `none` on the empty list. -/
def listMax : List ℚ → Option ℚ
  | [] => none
  | x :: l =>
    match listMax l with
    | none => some x
    | some m => some (max x m)

/-- pandas `Series.min()`: minimum of the non-null values, NaN if none. -/
def seriesMin (xs : List Cell) : Option ℚ := listMin (vals xs)

/-- pandas `Series.max()`: maximum of the non-null values, NaN if none. -/
def seriesMax (xs : List Cell) : Option ℚ := listMax (vals xs)

/-- The five statistics printed per numeric column.  `stdSq` holds the square
of the reported standard deviation (see `seriesStdSq`). -/
structure SummaryStat where
  mean : Option ℚ
  median : Option ℚ
  stdSq : Option ℚ
  min : Option ℚ
  max : Option ℚ
deriving DecidableEq

/-- Method `summary_statistics` (src/weather.py:45-63): for every numeric column,
mean, median, std, min and max of that column (each skipping nulls).
`render_statistics` (src/app.py:249-292) computes the same five values.
The numeric-dtype column selection is modelled by taking the list of numeric
columns as input.  A zero-row table reaches this code as numeric columns
whose value lists are empty; only an unloaded dataframe (`self.df is None`)
is special-cased, by an early return. -/
def summary_statistics (cols : List (String × List Cell)) :
    List (String × SummaryStat) :=
  cols.map (fun c =>
    (c.1, ⟨seriesMean c.2, seriesMedian c.2, seriesStdSq c.2,
      seriesMin c.2, seriesMax c.2⟩))

/-- C7 counterexample: on a table with zero rows, `summary_statistics`
raises nothing and returns the NaN sentinel for every statistic of every
numeric column — there is no `EmptyTableError` (no failure path exists in
the embedding because none exists in the source). -/
theorem summary_statistics_empty_table_no_error :
    summary_statistics [("temperature", []), ("precipitation", [])] =
      [("temperature", ⟨none, none, none, none, none⟩),
       ("precipitation", ⟨none, none, none, none, none⟩)] := by
  decide

/-- C7 amended: on a zero-row table every statistic of every numeric column
is the NaN sentinel; the operation completes normally instead of failing. -/
theorem summary_statistics_empty_all_nan (cols : List (String × List Cell))
    (h : ∀ c ∈ cols, c.2 = []) :
    ∀ p ∈ summary_statistics cols, p.2 = ⟨none, none, none, none, none⟩ := by
  intro p hp
  obtain ⟨c, hc, rfl⟩ := List.mem_map.mp hp
  rw [h c hc]
  rfl

/-- Instantiation of `summary_statistics_empty_all_nan` at a concrete
zero-row table. -/
theorem summary_statistics_empty_all_nan_inst :
    (∀ c ∈ [("temperature", ([] : List Cell))], c.2 = []) ∧
    ∀ p ∈ summary_statistics [("temperature", [])],
      p.2 = ⟨none, none, none, none, none⟩ :=
  ⟨by decide, summary_statistics_empty_all_nan _ (by decide)⟩

/-- The sample variance (ddof = 1), as the spec words it: taken over the
non-null values, with a not-a-number sentinel when fewer than 2 exist. -/
def sampleVarSpec (vs : List ℚ) : Option ℚ :=
  if vs.length ≤ 1 then none
  else
    some ((vs.map (fun v => (v - vs.sum / (vs.length : ℚ)) ^ 2)).sum
      / ((vs.length : ℚ) - 1))

/-- C8: the reported standard deviation is the sample standard deviation
(ddof = 1) over the non-null values — its square equals the ddof-1 sample
variance — and a column with fewer than 2 non-null values yields the NaN
sentinel rather than an error. -/
theorem summary_std_is_sample_variance (cols : List (String × List Cell))
    (name : String) (xs : List Cell) (h : (name, xs) ∈ cols) :
    ∃ st : SummaryStat, (name, st) ∈ summary_statistics cols ∧
      st.stdSq = sampleVarSpec (vals xs) ∧
      ((vals xs).length < 2 → st.stdSq = none) := by
  refine ⟨⟨seriesMean xs, seriesMedian xs, seriesStdSq xs,
    seriesMin xs, seriesMax xs⟩, ?_, ?_, ?_⟩
  · exact List.mem_map.mpr ⟨(name, xs), h, rfl⟩
  · unfold seriesStdSq sampleVarSpec
    by_cases hlen : (vals xs).length < 2
    · rw [if_pos hlen, if_pos (by omega)]
    · rw [if_neg hlen, if_neg (by omega)]
  · intro hlen
    unfold seriesStdSq
    rw [if_pos hlen]

/-- Instantiation of `summary_std_is_sample_variance` at a single-row
table. -/
theorem summary_std_is_sample_variance_inst :
    ("temperature", [some (5 : ℚ)]) ∈ [("temperature", [some (5 : ℚ)])] ∧
    ∃ st : SummaryStat,
      ("temperature", st) ∈ summary_statistics [("temperature", [some 5])] ∧
      st.stdSq = sampleVarSpec (vals [some 5]) ∧
      ((vals [some (5 : ℚ)]).length < 2 → st.stdSq = none) :=
  ⟨by decide, summary_std_is_sample_variance _ _ _ (by decide)⟩

theorem listMin_eq_none : ∀ {l : List ℚ}, listMin l = none → l = [] := by
  intro l h
  cases l with
  | nil => rfl
  | cons a t =>
    exfalso
    simp only [listMin] at h
    cases ht : listMin t <;> rw [ht] at h <;> simp at h

theorem listMax_eq_none : ∀ {l : List ℚ}, listMax l = none → l = [] := by
  intro l h
  cases l with
  | nil => rfl
  | cons a t =>
    exfalso
    simp only [listMax] at h
    cases ht : listMax t <;> rw [ht] at h <;> simp at h

theorem listMin_le : ∀ {l : List ℚ} {m : ℚ}, listMin l = some m → ∀ x ∈ l, m ≤ x := by
  intro l
  induction l with
  | nil => intro m h; simp [listMin] at h
  | cons a l ih =>
    intro m h x hx
    simp only [listMin] at h
    cases hl : listMin l with
    | none =>
      rw [hl] at h
      simp only [Option.some.injEq] at h
      subst h
      rcases List.mem_cons.mp hx with rfl | hx'
      · exact le_refl x
      · rw [listMin_eq_none hl] at hx'
        simp at hx'
    | some k =>
      rw [hl] at h
      simp only [Option.some.injEq] at h
      subst h
      rcases List.mem_cons.mp hx with rfl | hx'
      · exact min_le_left _ _
      · exact le_trans (min_le_right _ _) (ih hl x hx')

theorem listMax_ge : ∀ {l : List ℚ} {m : ℚ}, listMax l = some m → ∀ x ∈ l, x ≤ m := by
  intro l
  induction l with
  | nil => intro m h; simp [listMax] at h
  | cons a l ih =>
    intro m h x hx
    simp only [listMax] at h
    cases hl : listMax l with
    | none =>
      rw [hl] at h
      simp only [Option.some.injEq] at h
      subst h
      rcases List.mem_cons.mp hx with rfl | hx'
      · exact le_refl x
      · rw [listMax_eq_none hl] at hx'
        simp at hx'
    | some k =>
      rw [hl] at h
      simp only [Option.some.injEq] at h
      subst h
      rcases List.mem_cons.mp hx with rfl | hx'
      · exact le_max_left _ _
      · exact le_trans (ih hl x hx') (le_max_right _ _)

theorem le_mean_of_forall_le {l : List ℚ} (hne : l ≠ []) {lo : ℚ}
    (h : ∀ x ∈ l, lo ≤ x) : lo ≤ l.sum / l.length := by
  have hpos : (0 : ℚ) < (l.length : ℚ) := by
    exact_mod_cast List.length_pos.mpr hne
  rw [le_div_iff₀ hpos]
  have h2 := List.card_nsmul_le_sum l lo h
  rw [nsmul_eq_mul] at h2
  linarith

theorem mean_le_of_forall_le {l : List ℚ} (hne : l ≠ []) {hi : ℚ}
    (h : ∀ x ∈ l, x ≤ hi) : l.sum / l.length ≤ hi := by
  have hpos : (0 : ℚ) < (l.length : ℚ) := by
    exact_mod_cast List.length_pos.mpr hne
  rw [div_le_iff₀ hpos]
  have h2 := List.sum_le_card_nsmul l hi h
  rw [nsmul_eq_mul] at h2
  linarith

/-- C9: whenever the min and max of a column exist (the column has a
non-null value), mean and median of that column, when defined, lie between
them; the statistics are taken over the non-null values.  Exact rational
bounds imply the claim's 1e-9 float tolerance. -/
theorem summary_mean_median_between_min_max (cols : List (String × List Cell))
    (name : String) (st : SummaryStat) (h : (name, st) ∈ summary_statistics cols)
    (lo hi : ℚ) (hlo : st.min = some lo) (hhi : st.max = some hi) :
    (∀ m, st.mean = some m → lo ≤ m ∧ m ≤ hi) ∧
    (∀ md, st.median = some md → lo ≤ md ∧ md ≤ hi) := by
  obtain ⟨⟨cn, xs⟩, hc, heq⟩ := List.mem_map.mp h
  injection heq with h1 h2
  subst h2
  simp only at hlo hhi
  have hlo_all : ∀ x ∈ vals xs, lo ≤ x := listMin_le hlo
  have hhi_all : ∀ x ∈ vals xs, x ≤ hi := listMax_ge hhi
  constructor
  · intro m hm
    simp only [seriesMean] at hm
    by_cases hv : vals xs = []
    · rw [if_pos hv] at hm; exact absurd hm (by simp)
    · rw [if_neg hv] at hm
      simp only [Option.some.injEq] at hm
      subst hm
      exact ⟨le_mean_of_forall_le hv hlo_all, mean_le_of_forall_le hv hhi_all⟩
  · intro md hmd
    have hmem : ∀ x ∈ List.insertionSort (· ≤ ·) (vals xs), lo ≤ x ∧ x ≤ hi := by
      intro x hx
      have hx' := (List.mem_insertionSort _).mp hx
      exact ⟨hlo_all x hx', hhi_all x hx'⟩
    simp only [seriesMedian] at hmd
    split at hmd
    · exact absurd hmd (by simp)
    · split at hmd
      · have hmem' := hmem md (List.getElem?_mem hmd)
        exact hmem'
      · split at hmd
        · rename_i a b ha hb
          simp only [Option.some.injEq] at hmd
          subst hmd
          have hma := hmem a (List.getElem?_mem ha)
          have hmb := hmem b (List.getElem?_mem hb)
          constructor
          · have := hma.1; have := hmb.1; linarith
          · have := hma.2; have := hmb.2; linarith
        · exact absurd hmd (by simp)

theorem summary_statistics_two_row_value :
    summary_statistics [("temperature", [some 1, some 3])] =
      [("temperature", ⟨some 2, some 2, some 2, some 1, some 3⟩)] := by
  norm_num [summary_statistics, seriesMean, seriesMedian, seriesStdSq,
    seriesMin, seriesMax, vals, listMin, listMax,
    List.insertionSort, List.orderedInsert,
    List.filterMap_cons, List.filterMap_nil]
  exact fun h => absurd h (by simp)

/-- Instantiation of `summary_mean_median_between_min_max` at a two-row
table. -/
theorem summary_mean_median_between_min_max_inst :
    (("temperature", (⟨some 2, some 2, some 2, some 1, some 3⟩ : SummaryStat))
        ∈ summary_statistics [("temperature", [some 1, some 3])]) ∧
    ((∀ m, (some (2 : ℚ)) = some m → (1 : ℚ) ≤ m ∧ m ≤ 3) ∧
     (∀ md, (some (2 : ℚ)) = some md → (1 : ℚ) ≤ md ∧ md ≤ 3)) :=
  have hmem : ("temperature", (⟨some 2, some 2, some 2, some 1, some 3⟩ : SummaryStat))
      ∈ summary_statistics [("temperature", [some 1, some 3])] := by
    rw [summary_statistics_two_row_value]
    exact List.mem_singleton.mpr rfl
  ⟨hmem,
    summary_mean_median_between_min_max [("temperature", [some 1, some 3])]
      "temperature" ⟨some 2, some 2, some 2, some 1, some 3⟩ hmem
      1 3 rfl rfl⟩

/-! ### Monthly averages (`update_visualization`, src/app.py:337-344;
`plot_monthly_averages`, src/weather.py:104-106) -/

/-- One row of the weather table as the grouping computations see it:
`pd.to_datetime(df['date']).dt.month` keeps only the calendar month of the
date (the year field exists solely to express year-independence), plus the
`temperature` cell. -/
structure WRow where
  year : Nat
  month : Nat
  temperature : Cell
deriving DecidableEq

/-- Embedding of `df.groupby(key)[column].mean()` over (key, value) pairs: one bucket per
distinct key, keys sorted ascending (pandas `groupby` default `sort=True`),
bucket value the nan-skipping mean of the group (NaN when the whole group is
null). -/
def groupbyMean (ps : List (Nat × Cell)) : List (Nat × Option ℚ) :=
  (List.insertionSort (· ≤ ·) (ps.map Prod.fst).dedup).map
    (fun m => (m, seriesMean ((ps.filter (fun p => p.1 == m)).map Prod.snd)))

/-- The 'monthly' branch of `update_visualization` (src/app.py:337-344),
identically `plot_monthly_averages` (src/weather.py:104-106):
`df_copy['month'] = pd.to_datetime(df_copy['date']).dt.month` followed by
`df_copy.groupby('month')['temperature'].mean()`. -/
def monthly_avg (rows : List WRow) : List (Nat × Option ℚ) :=
  groupbyMean (rows.map (fun r => (r.month, r.temperature)))

theorem monthly_avg_eq (rows : List WRow) :
    monthly_avg rows =
      (List.insertionSort (· ≤ ·) ((rows.map (fun r => r.month)).dedup)).map
        (fun m => (m, seriesMean ((rows.filter (fun r => r.month == m)).map
          (fun r => r.temperature)))) := by
  unfold monthly_avg groupbyMean
  simp only [List.map_map, List.filter_map]
  rfl

theorem monthly_avg_keys (rows : List WRow) :
    (monthly_avg rows).map Prod.fst =
      List.insertionSort (· ≤ ·) ((rows.map (fun r => r.month)).dedup) := by
  rw [monthly_avg_eq, List.map_map]
  exact List.map_id _

theorem mem_monthly_keys (rows : List WRow) (m : ℕ) :
    m ∈ (monthly_avg rows).map Prod.fst ↔ ∃ r ∈ rows, r.month = m := by
  rw [monthly_avg_keys, List.mem_insertionSort, List.mem_dedup, List.mem_map]

theorem monthly_avg_value (rows : List WRow) (m : ℕ) (v : Option ℚ)
    (h : (m, v) ∈ monthly_avg rows) :
    v = seriesMean ((rows.filter (fun r => r.month == m)).map
      (fun r => r.temperature)) := by
  rw [monthly_avg_eq] at h
  obtain ⟨k, _, hk⟩ := List.mem_map.mp h
  injection hk with h1 h2
  subst h1
  exact h2.symm

theorem monthly_avg_mem_of (rows : List WRow) (m : ℕ)
    (h : ∃ r ∈ rows, r.month = m) :
    (m, seriesMean ((rows.filter (fun r => r.month == m)).map
      (fun r => r.temperature))) ∈ monthly_avg rows := by
  rw [monthly_avg_eq]
  refine List.mem_map.mpr ⟨m, ?_, rfl⟩
  rw [List.mem_insertionSort, List.mem_dedup, List.mem_map]
  exact h

/-- C4: monthly averages group by calendar month 1–12 only (independent of
the year), take the per-bucket mean of the aggregated column, omit months
with no rows entirely, and order buckets by month number ascending. -/
theorem monthly_avg_spec (rows : List WRow)
    (h12 : ∀ r ∈ rows, 1 ≤ r.month ∧ r.month ≤ 12) :
    List.Sorted (· < ·) ((monthly_avg rows).map Prod.fst) ∧
    (∀ m, m ∈ (monthly_avg rows).map Prod.fst ↔ ∃ r ∈ rows, r.month = m) ∧
    (∀ m v, (m, v) ∈ monthly_avg rows →
      v = seriesMean ((rows.filter (fun r => r.month == m)).map
        (fun r => r.temperature))) ∧
    (∀ g : WRow → ℕ,
      monthly_avg (rows.map (fun r => ⟨g r, r.month, r.temperature⟩)) =
        monthly_avg rows) ∧
    (monthly_avg rows).length ≤ 12 := by
  refine ⟨?_, mem_monthly_keys rows, monthly_avg_value rows, ?_, ?_⟩
  · rw [monthly_avg_keys]
    refine List.Sorted.lt_of_le (List.sorted_insertionSort _ _) ?_
    exact (List.perm_insertionSort _ _).nodup_iff.mpr (List.nodup_dedup _)
  · intro g
    unfold monthly_avg
    simp only [List.map_map]
    rfl
  · have hlen : (monthly_avg rows).length
        = ((monthly_avg rows).map Prod.fst).length := by
      rw [List.length_map]
    rw [hlen]
    set ks := (monthly_avg rows).map Prod.fst with hks
    have hnodup : ks.Nodup := by
      rw [hks, monthly_avg_keys]
      exact (List.perm_insertionSort _ _).nodup_iff.mpr (List.nodup_dedup _)
    have hsub : ks.toFinset ⊆ Finset.Icc 1 12 := by
      intro x hx
      rw [List.mem_toFinset] at hx
      obtain ⟨r, hr, hrm⟩ := (mem_monthly_keys rows x).mp (hks ▸ hx)
      have := h12 r hr
      rw [Finset.mem_Icc]
      omega
    calc ks.length = ks.toFinset.card := (List.toFinset_card_of_nodup hnodup).symm
      _ ≤ (Finset.Icc 1 12).card := Finset.card_le_card hsub
      _ = 12 := by rw [Nat.card_Icc]

/-- Instantiation of `monthly_avg_spec` at a concrete two-year table. -/
theorem monthly_avg_spec_inst :
    (∀ r ∈ [(⟨2023, 5, some 10⟩ : WRow), ⟨2024, 5, some 20⟩, ⟨2024, 1, none⟩],
      1 ≤ r.month ∧ r.month ≤ 12) ∧
    (List.Sorted (· < ·) ((monthly_avg
        [⟨2023, 5, some 10⟩, ⟨2024, 5, some 20⟩, ⟨2024, 1, none⟩]).map Prod.fst) ∧
    (∀ m, m ∈ (monthly_avg
        [⟨2023, 5, some 10⟩, ⟨2024, 5, some 20⟩, ⟨2024, 1, none⟩]).map Prod.fst ↔
      ∃ r ∈ [(⟨2023, 5, some 10⟩ : WRow), ⟨2024, 5, some 20⟩, ⟨2024, 1, none⟩],
        r.month = m) ∧
    (∀ m v, (m, v) ∈ monthly_avg
        [⟨2023, 5, some 10⟩, ⟨2024, 5, some 20⟩, ⟨2024, 1, none⟩] →
      v = seriesMean (([(⟨2023, 5, some 10⟩ : WRow), ⟨2024, 5, some 20⟩,
          ⟨2024, 1, none⟩].filter (fun r => r.month == m)).map
        (fun r => r.temperature))) ∧
    (∀ g : WRow → ℕ,
      monthly_avg ([(⟨2023, 5, some 10⟩ : WRow), ⟨2024, 5, some 20⟩,
          ⟨2024, 1, none⟩].map (fun r => ⟨g r, r.month, r.temperature⟩)) =
        monthly_avg [⟨2023, 5, some 10⟩, ⟨2024, 5, some 20⟩, ⟨2024, 1, none⟩]) ∧
    (monthly_avg [⟨2023, 5, some 10⟩, ⟨2024, 5, some 20⟩, ⟨2024, 1, none⟩]).length
      ≤ 12) :=
  ⟨by decide, monthly_avg_spec _ (by decide)⟩

/-- C10: a month that has rows whose temperatures are all null still appears
as a bucket, with a NaN mean; a month is absent from the result only when it
has no rows at all; and each defined bucket mean is the mean over the
non-null values of the bucket only. -/
theorem monthly_avg_allnull_bucket (rows : List WRow) :
    (∀ m, (∃ r ∈ rows, r.month = m) →
      (∀ r ∈ rows, r.month = m → r.temperature = none) →
      (m, (none : Option ℚ)) ∈ monthly_avg rows) ∧
    (∀ m, (∀ r ∈ rows, r.month ≠ m) → m ∉ (monthly_avg rows).map Prod.fst) ∧
    (∀ m v q, (m, v) ∈ monthly_avg rows → v = some q →
      q = (((rows.filter (fun r => r.month == m)).map
            (fun r => r.temperature)).filterMap id).sum /
          (((((rows.filter (fun r => r.month == m)).map
            (fun r => r.temperature)).filterMap id).length : ℚ))) := by
  refine ⟨?_, ?_, ?_⟩
  · intro m hex hnull
    have hmem := monthly_avg_mem_of rows m hex
    have hnil : ((rows.filter (fun r => r.month == m)).map
        (fun r => r.temperature)).filterMap id = [] := by
      rw [List.filterMap_eq_nil_iff]
      intro a ha
      obtain ⟨r, hr, hra⟩ := List.mem_map.mp ha
      have hr' := List.mem_filter.mp hr
      rw [← hra, hnull r hr'.1 (by simpa using hr'.2)]
      rfl
    have : seriesMean ((rows.filter (fun r => r.month == m)).map
        (fun r => r.temperature)) = none := by
      unfold seriesMean vals
      rw [if_pos hnil]
    rwa [this] at hmem
  · intro m hno hmem
    obtain ⟨r, hr, hrm⟩ := (mem_monthly_keys rows m).mp hmem
    exact hno r hr hrm
  · intro m v q hmem hv
    have hval := monthly_avg_value rows m v hmem
    rw [hv] at hval
    unfold seriesMean vals at hval
    by_cases hnil : ((rows.filter (fun r => r.month == m)).map
        (fun r => r.temperature)).filterMap id = []
    · rw [if_pos hnil] at hval
      exact absurd hval (by simp)
    · rw [if_neg hnil] at hval
      simp only [Option.some.injEq] at hval
      exact hval

/-- Instantiation of `monthly_avg_allnull_bucket`: a February-only table
whose single temperature is null still produces a February bucket with a
NaN mean. -/
theorem monthly_avg_allnull_bucket_inst :
    (2, (none : Option ℚ)) ∈ monthly_avg [⟨2024, 2, none⟩] :=
  (monthly_avg_allnull_bucket [⟨2024, 2, none⟩]).1 2 (by decide) (by decide)

/-! ### Seasonal averages (`render_insights`, src/app.py:530-538) -/

/-- The season label of a calendar month, exactly the lambda of
`render_insights` (src/app.py:532-536): `'Winter' if x in [12, 1, 2] else
'Spring' if x in [3, 4, 5] else 'Summer' if x in [6, 7, 8] else 'Fall'`. -/
def season (m : ℕ) : String :=
  if m = 12 ∨ m = 1 ∨ m = 2 then "Winter"
  else if m = 3 ∨ m = 4 ∨ m = 5 then "Spring"
  else if m = 6 ∨ m = 7 ∨ m = 8 then "Summer"
  else "Fall"

/-- Embedding of `df_seasonal.groupby('season')['temperature'].mean()` (src/app.py:538):
one bucket per distinct season label, keys in ascending (alphabetical)
order — pandas `groupby` default `sort=True` — and the nan-skipping group
mean as value. -/
def seasonal_groups (rows : List WRow) : List (String × Option ℚ) :=
  (List.insertionSort (· ≤ ·) ((rows.map (fun r => season r.month)).dedup)).map
    (fun s => (s, seriesMean ((rows.filter (fun r => season r.month == s)).map
      (fun r => r.temperature))))

/-- Order on bucket means used by the `sort_values` model.  `sort_values`
only ever compares the non-NaN entries, so the `none` cases are an arbitrary
total completion (`none` placed on top); they never influence the result. -/
def leOpt : Option ℚ → Option ℚ → Prop
  | some a, some b => a ≤ b
  | some _, none => True
  | none, some _ => False
  | none, none => True

instance : DecidableRel leOpt := fun a b =>
  match a, b with
  | some x, some y => inferInstanceAs (Decidable (x ≤ y))
  | some _, none => Decidable.isTrue trivial
  | none, some _ => Decidable.isFalse (fun h => h)
  | none, none => Decidable.isTrue trivial

/-- Relation `leOpt` lifted to (key, mean) buckets through the mean component. -/
def leVal (g h : String × Option ℚ) : Prop := leOpt g.2 h.2

instance : DecidableRel leVal := fun g h =>
  inferInstanceAs (Decidable (leOpt g.2 h.2))

instance : IsTotal (String × Option ℚ) leVal where
  total g h := by
    cases hg : g.2 with
    | none => cases hh : h.2 with
      | none => exact Or.inl (by simp [leVal, hg, hh, leOpt])
      | some b => exact Or.inr (by simp [leVal, hg, hh, leOpt])
    | some a => cases hh : h.2 with
      | none => exact Or.inl (by simp [leVal, hg, hh, leOpt])
      | some b =>
        rcases le_total a b with hab | hab
        · exact Or.inl (by simp [leVal, hg, hh, leOpt, hab])
        · exact Or.inr (by simp [leVal, hg, hh, leOpt, hab])

instance : IsTrans (String × Option ℚ) leVal where
  trans g h k := by
    unfold leVal
    cases g.2 <;> cases h.2 <;> cases k.2 <;> simp [leOpt]
    exact le_trans

/-- Embedding of `Series.sort_values(ascending=False)` (src/app.py:538),
following pandas `nargsort` (pandas ≥ 1.2, GH 35922): set the NaN entries
aside, reverse the non-NaN part, argsort it ascending with a stable kind —
the default `quicksort` is a stable insertion sort for arrays shorter than
16 elements, and a seasonal series has at most 4 — reverse the indexer back,
and append the NaN entries at the end (`na_position='last'`).  The
reverse/stable-sort/reverse sandwich produces a descending order in which
entries with equal values keep their original relative order. -/
def sort_values_desc (gs : List (String × Option ℚ)) : List (String × Option ℚ) :=
  (List.insertionSort leVal ((gs.filter (fun g => g.2.isSome)).reverse)).reverse
    ++ gs.filter (fun g => !g.2.isSome)

/-- Variable `seasonal_avg` of `render_insights` (src/app.py:538):
`groupby('season')['temperature'].mean().sort_values(ascending=False)`. -/
def seasonal_avg (rows : List WRow) : List (String × Option ℚ) :=
  sort_values_desc (seasonal_groups rows)

/-- Descending order on means with NaN entries at the end: what the rendered
season list satisfies. -/
def geOpt : Option ℚ → Option ℚ → Prop
  | some a, some b => b ≤ a
  | some _, none => True
  | none, some _ => False
  | none, none => True

theorem eq_none_of_isSome_false {o : Option ℚ} (h : o.isSome = false) :
    o = none := by
  cases o with
  | none => rfl
  | some _ => simp at h

theorem seasonal_groups_value (rows : List WRow) (s : String) (v : Option ℚ)
    (h : (s, v) ∈ seasonal_groups rows) :
    v = seriesMean ((rows.filter (fun r => season r.month == s)).map
      (fun r => r.temperature)) := by
  obtain ⟨k, _, hk⟩ := List.mem_map.mp h
  injection hk with h1 h2
  subst h1
  exact h2.symm

theorem seasonal_groups_two_rows :
    seasonal_groups [⟨2024, 7, some 10⟩, ⟨2024, 1, some 10⟩]
      = [("Summer", some 10), ("Winter", some 10)] := by
  have hle : ("Summer" : String) ≤ "Winter" := by
    rw [String.le_iff_toList_le]; decide
  have hs7 : season 7 = "Summer" := by norm_num [season]
  have hs1 : season 1 = "Winter" := by norm_num [season]
  have hne : ("Winter" : String) ≠ "Summer" := by decide
  have hne2 : ("Summer" : String) ≠ "Winter" := by decide
  norm_num [seasonal_groups, hs7, hs1, seriesMean, vals,
    List.insertionSort, List.orderedInsert, List.filterMap_cons,
    List.filterMap_nil, List.filter_cons, List.filter_nil,
    hle, hne, hne2, beq_iff_eq]
  exact fun h => absurd h (by simp)

/-- C5: season assignment follows the fixed month mapping, each bucket
carries the nan-skipping mean temperature of its season, the exposed list is
sorted by descending mean (NaN means last), and seasons with equal means
keep their stable/groupby (input) order: `sort_values(ascending=False)`
reverses the non-NaN part both before and after a stable ascending sort,
which preserves the relative order of ties. -/
theorem seasonal_avg_spec (rows : List WRow) :
    (season 12 = "Winter" ∧ season 1 = "Winter" ∧ season 2 = "Winter" ∧
     season 3 = "Spring" ∧ season 4 = "Spring" ∧ season 5 = "Spring" ∧
     season 6 = "Summer" ∧ season 7 = "Summer" ∧ season 8 = "Summer" ∧
     season 9 = "Fall" ∧ season 10 = "Fall" ∧ season 11 = "Fall") ∧
    (∀ s v, (s, v) ∈ seasonal_avg rows →
      v = seriesMean ((rows.filter (fun r => season r.month == s)).map
        (fun r => r.temperature))) ∧
    List.Sorted geOpt ((seasonal_avg rows).map Prod.snd) ∧
    (∀ a b va vb, va = vb →
      List.Sublist [(a, some va), (b, some vb)] (seasonal_groups rows) →
      List.Sublist [(a, some va), (b, some vb)] (seasonal_avg rows)) := by
  refine ⟨by decide, ?_, ?_, ?_⟩
  · intro s v h
    rw [seasonal_avg, sort_values_desc, List.mem_append] at h
    have hmem : (s, v) ∈ seasonal_groups rows := by
      rcases h with h | h
      · rw [List.mem_reverse, List.mem_insertionSort, List.mem_reverse] at h
        exact (List.mem_filter.mp h).1
      · exact (List.mem_filter.mp h).1
    exact seasonal_groups_value rows s v hmem
  · rw [seasonal_avg, sort_values_desc, List.map_append, List.map_reverse]
    have hsome : ∀ g ∈ List.insertionSort leVal
        (((seasonal_groups rows).filter (fun g => g.2.isSome)).reverse),
        g.2.isSome := by
      intro g hg
      rw [List.mem_insertionSort, List.mem_reverse] at hg
      exact (List.mem_filter.mp hg).2
    rw [List.Sorted, List.pairwise_append]
    refine ⟨?_, ?_, ?_⟩
    · rw [List.pairwise_reverse, List.pairwise_map]
      refine List.Pairwise.imp_of_mem ?_
        (List.sorted_insertionSort leVal _)
      intro g h hg hh hle
      have hgs := hsome g hg
      have hhs := hsome h hh
      obtain ⟨x, hx⟩ := Option.isSome_iff_exists.mp hgs
      obtain ⟨y, hy⟩ := Option.isSome_iff_exists.mp hhs
      rw [hx, hy]
      rw [leVal, hx, hy] at hle
      exact hle
    · rw [List.pairwise_map]
      refine List.pairwise_of_forall_mem_list ?_
      intro g hg h hh
      have hgn := (List.mem_filter.mp hg).2
      have hhn := (List.mem_filter.mp hh).2
      simp only [Bool.not_eq_true'] at hgn hhn
      rw [eq_none_of_isSome_false hgn, eq_none_of_isSome_false hhn]
      trivial
    · intro x hx y hy
      rw [List.mem_reverse, List.mem_map] at hx
      rw [List.mem_map] at hy
      obtain ⟨g, hg, rfl⟩ := hx
      obtain ⟨h, hh, rfl⟩ := hy
      have hgs := hsome g hg
      have hhn := (List.mem_filter.mp hh).2
      simp only [Bool.not_eq_true'] at hhn
      obtain ⟨x, hx⟩ := Option.isSome_iff_exists.mp hgs
      rw [hx, eq_none_of_isSome_false hhn]
      trivial
  · intro a b va vb hv hsub
    have h1 : List.Sublist [(a, some va), (b, some vb)]
        ((seasonal_groups rows).filter (fun g => g.2.isSome)) := by
      have := hsub.filter (fun g => g.2.isSome)
      simpa using this
    have h1r := h1.reverse
    rw [List.reverse_cons, List.reverse_cons, List.reverse_nil,
      List.nil_append, List.singleton_append] at h1r
    have h2 : List.Sublist [(b, some vb), (a, some va)] (List.insertionSort leVal
        (((seasonal_groups rows).filter (fun g => g.2.isSome)).reverse)) := by
      refine List.pair_sublist_insertionSort ?_ h1r
      rw [leVal]
      subst hv
      exact le_refl va
    have h3 := h2.reverse
    rw [List.reverse_cons, List.reverse_cons, List.reverse_nil,
      List.nil_append, List.singleton_append] at h3
    rw [seasonal_avg, sort_values_desc]
    exact h3.trans (List.sublist_append_left _ _)

/-- Instantiation of `seasonal_avg_spec`: on a two-row tied table the
groupby-ordered pair `[Summer, Winter]` keeps that order in the rendered
output. -/
theorem seasonal_avg_spec_inst :
    (10 : ℚ) = 10 ∧
    List.Sublist [("Summer", some (10 : ℚ)), ("Winter", some 10)]
      (seasonal_groups [⟨2024, 7, some 10⟩, ⟨2024, 1, some 10⟩]) ∧
    List.Sublist [("Summer", some (10 : ℚ)), ("Winter", some 10)]
      (seasonal_avg [⟨2024, 7, some 10⟩, ⟨2024, 1, some 10⟩]) :=
  have hsub : List.Sublist [("Summer", some (10 : ℚ)), ("Winter", some 10)]
      (seasonal_groups [⟨2024, 7, some 10⟩, ⟨2024, 1, some 10⟩]) := by
    rw [seasonal_groups_two_rows]
  ⟨rfl, hsub,
    (seasonal_avg_spec [⟨2024, 7, some 10⟩, ⟨2024, 1, some 10⟩]).2.2.2
      "Summer" "Winter" 10 10 rfl hsub⟩

/-! ### Extreme days (`find_extreme_days`, src/weather.py:146-168;
`render_extremes`, src/app.py:416-473) -/

/-- A dataframe as `find_extreme_days` sees it: named numeric columns. -/
abbrev DF := List (String × List Cell)

/-- Column lookup: `col in df.columns` / `df[col]`. -/
def getCol (df : DF) (c : String) : Option (List Cell) :=
  (df.find? (fun p => p.1 == c)).map Prod.snd

/-- One step of the extreme-value scan: combine the head cell with the best
(index, value) of the tail; null cells are skipped, and the head wins ties
(numpy argmax/argmin keep the first occurrence).  `better b v` holds when
the best `b` of the tail strictly improves on the head value `v`. -/
def idxStep (better : ℚ → ℚ → Bool) (c : Cell) (rest : Option (ℕ × ℚ)) :
    Option (ℕ × ℚ) :=
  match c, rest with
  | none, none => none
  | none, some (i, b) => some (i + 1, b)
  | some v, none => some (0, v)
  | some v, some (i, b) => if better b v then some (i + 1, b) else some (0, v)

/-- Positional index and value of the first extreme non-null cell. -/
def idxExtreme (better : ℚ → ℚ → Bool) : List Cell → Option (ℕ × ℚ)
  | [] => none
  | c :: l => idxStep better c (idxExtreme better l)

/-- pandas `Series.idxmax()`: positional index of the first maximal non-null
value; raises `ValueError` on an all-null column (modelled as
`Except.error`). -/
def idxmax (xs : List Cell) : Except String ℕ :=
  match idxExtreme (fun b v => decide (v < b)) xs with
  | none => Except.error "ValueError"
  | some (i, _) => Except.ok i

/-- pandas `Series.idxmin()`: positional index of the first minimal non-null
value; raises `ValueError` on an all-null column. -/
def idxmin (xs : List Cell) : Except String ℕ :=
  match idxExtreme (fun b v => decide (b < v)) xs with
  | none => Except.error "ValueError"
  | some (i, _) => Except.ok i

/-- The `if 'temperature' in self.df.columns:` block of `find_extreme_days`
(src/weather.py:156-160): hottest day via `idxmax`, coldest via `idxmin`;
an absent column is skipped, producing nothing. -/
def tempBlock (df : DF) : Except String (List (String × ℕ)) :=
  match getCol df "temperature" with
  | none => Except.ok []
  | some t =>
    match idxmax t, idxmin t with
    | Except.ok h, Except.ok c => Except.ok [("hottest", h), ("coldest", c)]
    | Except.error e, _ => Except.error e
    | _, Except.error e => Except.error e

/-- The `if 'precipitation' in self.df.columns:` block
(src/weather.py:162-164). -/
def precBlock (df : DF) : Except String (List (String × ℕ)) :=
  match getCol df "precipitation" with
  | none => Except.ok []
  | some p =>
    match idxmax p with
    | Except.ok w => Except.ok [("wettest", w)]
    | Except.error e => Except.error e

/-- The `if 'wind_speed' in self.df.columns:` block
(src/weather.py:166-168). -/
def windBlock (df : DF) : Except String (List (String × ℕ)) :=
  match getCol df "wind_speed" with
  | none => Except.ok []
  | some w =>
    match idxmax w with
    | Except.ok x => Except.ok [("windiest", x)]
    | Except.error e => Except.error e

/-- Method `find_extreme_days` (src/weather.py:146-168): the three hard-coded
column blocks run in order; an uncaught pandas error aborts the call;
otherwise the reported extreme rows (as positional indices, paired with
their role) accumulate.  `render_extremes` (src/app.py:416-473) has the
same skip-absent-columns structure. -/
def find_extreme_days (df : DF) : Except String (List (String × ℕ)) :=
  match tempBlock df with
  | Except.error e => Except.error e
  | Except.ok l1 =>
    match precBlock df with
    | Except.error e => Except.error e
    | Except.ok l2 =>
      match windBlock df with
      | Except.error e => Except.error e
      | Except.ok l3 => Except.ok (l1 ++ l2 ++ l3)

/-- The roles reported by a successful call. -/
def rolesOf : Except String (List (String × ℕ)) → List String
  | Except.ok l => l.map Prod.fst
  | Except.error _ => []

/-- Whether the call completed without raising. -/
def okE : Except String (List (String × ℕ)) → Bool
  | Except.ok _ => true
  | Except.error _ => false

theorem idxExtreme_ne_none {better : ℚ → ℚ → Bool} :
    ∀ {xs : List Cell}, vals xs ≠ [] → idxExtreme better xs ≠ none := by
  intro xs
  induction xs with
  | nil => intro h; exact absurd rfl h
  | cons c l ih =>
    intro h
    cases c with
    | none =>
      have h' : vals l ≠ [] := by simpa [vals] using h
      simp only [idxExtreme]
      cases hl : idxExtreme better l with
      | none => exact absurd hl (ih h')
      | some p => obtain ⟨i, b⟩ := p; simp [idxStep]
    | some v =>
      simp only [idxExtreme]
      cases hl : idxExtreme better l with
      | none => simp [idxStep]
      | some p =>
        obtain ⟨i, b⟩ := p
        by_cases hb : better b v <;> simp [idxStep, hb]

theorem idxExtreme_eq_none {better : ℚ → ℚ → Bool} :
    ∀ {xs : List Cell}, vals xs = [] → idxExtreme better xs = none := by
  intro xs
  induction xs with
  | nil => intro _; rfl
  | cons c l ih =>
    intro h
    cases c with
    | none =>
      have h' : vals l = [] := by simpa [vals] using h
      simp only [idxExtreme]
      rw [ih h']
      rfl
    | some v => simp [vals] at h

theorem idxmax_ok {xs : List Cell} (h : vals xs ≠ []) :
    ∃ i, idxmax xs = Except.ok i := by
  unfold idxmax
  cases hx : idxExtreme (fun b v => decide (v < b)) xs with
  | none => exact absurd hx (idxExtreme_ne_none h)
  | some p => obtain ⟨i, b⟩ := p; exact ⟨i, rfl⟩

theorem idxmin_ok {xs : List Cell} (h : vals xs ≠ []) :
    ∃ i, idxmin xs = Except.ok i := by
  unfold idxmin
  cases hx : idxExtreme (fun b v => decide (b < v)) xs with
  | none => exact absurd hx (idxExtreme_ne_none h)
  | some p => obtain ⟨i, b⟩ := p; exact ⟨i, rfl⟩

theorem idxmax_err {xs : List Cell} (h : vals xs = []) :
    idxmax xs = Except.error "ValueError" := by
  unfold idxmax
  rw [idxExtreme_eq_none h]

/-- C6 counterexample: with `temperature` absent and `precipitation`
present, `find_extreme_days` completes successfully and reports only the
wettest day: the absent column is silently skipped, and no
`ColumnNotFoundError` (no typed error at all) is raised.  Under the claim
the call should have failed. -/
theorem find_extreme_days_skips_absent :
    find_extreme_days [("precipitation", [some 1, some 2])]
      = Except.ok [("wettest", 1)] := by
  rfl

/-- C6 amended: `find_extreme_days` silently skips each hard-coded column
(`temperature`, `precipitation`, `wind_speed`) that is absent: when every
present hard-coded column has a non-null value the call succeeds and
reports exactly the roles of the present columns; an absent column never
causes a failure.  Only a present but entirely-null `temperature` column
makes the call fail, and then with an untyped pandas `ValueError`, not a
typed `AllNullColumnError`. -/
theorem find_extreme_days_amended (df : DF) :
    ((∀ c ∈ ["temperature", "precipitation", "wind_speed"],
        (getCol df c).map vals ≠ some []) →
      rolesOf (find_extreme_days df) =
        (if (getCol df "temperature").isSome then ["hottest", "coldest"] else [])
          ++ (if (getCol df "precipitation").isSome then ["wettest"] else [])
          ++ (if (getCol df "wind_speed").isSome then ["windiest"] else []) ∧
      okE (find_extreme_days df) = true) ∧
    (∀ t, getCol df "temperature" = some t → vals t = [] →
      find_extreme_days df = Except.error "ValueError") := by
  constructor
  · intro hok
    have htb : ∃ l1, tempBlock df = Except.ok l1 ∧
        l1.map Prod.fst =
          (if (getCol df "temperature").isSome then ["hottest", "coldest"]
            else []) := by
      cases htemp : getCol df "temperature" with
      | none => exact ⟨[], by simp [tempBlock, htemp], by simp [htemp]⟩
      | some t =>
        have hv : vals t ≠ [] := by
          have := hok "temperature" (by simp)
          rw [htemp] at this
          simpa using this
        obtain ⟨i, hi⟩ := idxmax_ok hv
        obtain ⟨j, hj⟩ := idxmin_ok hv
        exact ⟨[("hottest", i), ("coldest", j)],
          by simp [tempBlock, htemp, hi, hj], by simp [htemp]⟩
    have hpb : ∃ l2, precBlock df = Except.ok l2 ∧
        l2.map Prod.fst =
          (if (getCol df "precipitation").isSome then ["wettest"] else []) := by
      cases hprec : getCol df "precipitation" with
      | none => exact ⟨[], by simp [precBlock, hprec], by simp [hprec]⟩
      | some p =>
        have hv : vals p ≠ [] := by
          have := hok "precipitation" (by simp)
          rw [hprec] at this
          simpa using this
        obtain ⟨i, hi⟩ := idxmax_ok hv
        exact ⟨[("wettest", i)], by simp [precBlock, hprec, hi],
          by simp [hprec]⟩
    have hwb : ∃ l3, windBlock df = Except.ok l3 ∧
        l3.map Prod.fst =
          (if (getCol df "wind_speed").isSome then ["windiest"] else []) := by
      cases hwind : getCol df "wind_speed" with
      | none => exact ⟨[], by simp [windBlock, hwind], by simp [hwind]⟩
      | some w =>
        have hv : vals w ≠ [] := by
          have := hok "wind_speed" (by simp)
          rw [hwind] at this
          simpa using this
        obtain ⟨i, hi⟩ := idxmax_ok hv
        exact ⟨[("windiest", i)], by simp [windBlock, hwind, hi],
          by simp [hwind]⟩
    obtain ⟨l1, h1, hm1⟩ := htb
    obtain ⟨l2, h2, hm2⟩ := hpb
    obtain ⟨l3, h3, hm3⟩ := hwb
    have hfed : find_extreme_days df = Except.ok (l1 ++ l2 ++ l3) := by
      simp [find_extreme_days, h1, h2, h3]
    rw [hfed]
    constructor
    · simp only [rolesOf, List.map_append, hm1, hm2, hm3]
    · rfl
  · intro t htemp hnull
    have htb : tempBlock df = Except.error "ValueError" := by
      simp [tempBlock, htemp, idxmax_err hnull]
    simp [find_extreme_days, htb]

/-- Instantiation of `find_extreme_days_amended`: a precipitation-only table
succeeds and reports only the wettest day; an all-null temperature column
raises the untyped error. -/
theorem find_extreme_days_amended_inst :
    (rolesOf (find_extreme_days [("precipitation", [some 1, some 2])])
        = ["wettest"] ∧
      okE (find_extreme_days [("precipitation", [some 1, some 2])]) = true) ∧
    find_extreme_days [("temperature", [none, none])]
      = Except.error "ValueError" := by
  constructor
  · have h := (find_extreme_days_amended
      [("precipitation", [some 1, some 2])]).1 (by decide)
    simpa [getCol] using h
  · exact (find_extreme_days_amended [("temperature", [none, none])]).2
      [none, none] (by decide) (by decide)

end Weather
